import Mathlib

/-!
# Verification of the OpenCL-Math host pipeline (src/main.c)

Shallow embedding of the host orchestration code in `src/main.c` together
with the exact semantics of the device kernels in `kernel_code`
(src/main.c:26-106).

Value model: the 32-bit float payload is modelled by exact rationals (ℚ).
Every property checked here is structural — which output indices receive
which formula, which sizes are visible to the caller, which resources are
released, which statuses are checked — and every concrete value appearing in
a statement is a small integer, exactly representable in `float`, so rational
arithmetic coincides with the C float arithmetic on those inputs.

Device model: a kernel enqueued with effective global size `G` executes one
work item per global id `g < G`, and `clEnqueueNDRangeKernel` with
`work_dim = 1` consumes only the first entry of the size arrays.  Freshly
created device buffers and host memory obtained by growing `realloc` hold
unspecified values; these are surfaced as explicit junk parameters, so a
theorem quantifying over them holds for every admissible memory state, and a
counterexample instantiates them with one admissible state.
-/

/-- C `realloc` on a float array viewed as the list of its element values
(src/main.c:211-213, 254-256 and the analogous lines of the other three
elementwise operations): the first `min n xs.length` values are preserved;
slots gained by growing hold unspecified values, modelled by the junk
parameter `j`. -/
def crealloc (xs : List ℚ) (n : ℕ) (j : ℚ) : List ℚ :=
  xs.take n ++ List.replicate (n - xs.length) j

/-- The extent-padding ladder of the four elementwise operations: the
`if / else if` chain of src/main.c:131-146, which is repeated verbatim for
`c` and for `r` at src/main.c:150-165, 177-192 and 193-208 (and again inside
`subtractShapesF`, `crossShapesF`, `divideShapesF`). -/
def padExtent (x : ℕ) : ℕ :=
  if x < 32 then 32
  else if x < 64 ∧ x > 32 then 64
  else if x < 128 ∧ x > 64 then 128
  else if x < 256 ∧ x > 128 then 256
  else x

/-- The complete padding step shared by the four elementwise operations
(src/main.c:129-209).  Note the branch structure of the source: when both
extents exceed 1, the case `r < 32` changes only `r` (line 167-170) and the
case `r ≥ 32 ∧ c < 32` changes only `c` (line 171-174); only when both
extents are at least 32 does the final `else` block (line 175-209) run the
ladder on `c` and then on `r`.  In that final block the inner `c < 32` test
is dead code, so running `padExtent` on each extent reproduces it exactly. -/
def padRC (r c : ℕ) : ℕ × ℕ :=
  if r = 1 then (r, padExtent c)
  else if c = 1 then (padExtent r, c)
  else if r < 32 then (32, c)
  else if c < 32 then (r, 32)
  else (padExtent r, padExtent c)

/-- Effective number of work items launched by the dispatch of an
elementwise operation (src/main.c:226-245), as a function of the padded
extents `pr, pc`.  In the vector branch the 1-D global size is the padded
nonunit extent.  In the matrix branch the code fills a two-element
`globalSize` array `{r, c}` but passes `work_dim = 1` to
`clEnqueueNDRangeKernel` (src/main.c:244), so only the first entry — the
padded row extent — determines the launch. -/
def elemGlobalSize (pr pc : ℕ) : ℕ :=
  if pr = 1 ∨ pc = 1 then (if pr = 1 then pc else pr) else pr

/-- The three caller-visible arrays after an elementwise operation
returns. -/
structure ElemResult where
  s1 : List ℚ
  s2 : List ℚ
  s3 : List ℚ

/-- Common body of `addShapesF`, `subtractShapesF`, `crossShapesF` and
`divideShapesF` (src/main.c:126-650), which are textually identical except
for the kernel invoked; the kernel operation is the parameter `op`
(src/main.c:33, 44, 54, 64).  Steps, in source order: remember the original
element count `r*c`; pad the extents (src/main.c:129-209); grow all three
host arrays to the padded count (src/main.c:211-213); upload `s1` and `s2`
to fresh device buffers; bind the padded count `vals = r*c` as the kernel's
bound argument `n` (src/main.c:220,225); launch with effective global size
`elemGlobalSize` — each work item `i` writes `s3[i] = op s1[i] s2[i]` iff
`i < n` (src/main.c:30-34); read the full padded output buffer back over the
host `s3` (src/main.c:247), so cells no work item wrote hold the unspecified
contents of the fresh device buffer, modelled by `dj`; finally shrink all
three host arrays back to the original count (src/main.c:254-256).  The
intermediate growth of the host `s3` array is omitted because the readback
overwrites every one of its cells.  `hj` models the unspecified contents of
slots gained by a growing `realloc`. -/
def elemShapesF (op : ℚ → ℚ → ℚ) (s1 s2 s3 : List ℚ) (r c : ℕ) (hj dj : ℚ) :
    ElemResult :=
  let oldN := r * c
  let pr := (padRC r c).1
  let pc := (padRC r c).2
  let N := pr * pc
  let s1p := crealloc s1 N hj
  let s2p := crealloc s2 N hj
  let G := elemGlobalSize pr pc
  let dev3 := (List.range N).map fun i =>
    if i < G then op (s1p.getD i 0) (s2p.getD i 0) else dj
  ⟨crealloc s1p oldN hj, crealloc s2p oldN hj, crealloc dev3 oldN hj⟩

/-- `addShapesF` (src/main.c:126-257): elementwise `+` (src/main.c:33). -/
def addShapesF : List ℚ → List ℚ → List ℚ → ℕ → ℕ → ℚ → ℚ → ElemResult :=
  elemShapesF (· + ·)

/-- `subtractShapesF` (src/main.c:258-388): elementwise `-`
(src/main.c:44). -/
def subtractShapesF : List ℚ → List ℚ → List ℚ → ℕ → ℕ → ℚ → ℚ → ElemResult :=
  elemShapesF (· - ·)

/-- `crossShapesF` (src/main.c:389-519): elementwise `*` (src/main.c:54). -/
def crossShapesF : List ℚ → List ℚ → List ℚ → ℕ → ℕ → ℚ → ℚ → ElemResult :=
  elemShapesF (· * ·)

/-- `divideShapesF` (src/main.c:520-650): elementwise `/` (src/main.c:64).
Rational division stands in for float division; no claim checked here
evaluates it at a zero divisor. -/
def divideShapesF : List ℚ → List ℚ → List ℚ → ℕ → ℕ → ℚ → ℚ → ElemResult :=
  elemShapesF (· / ·)

/-- `matVecF` (src/main.c:698-725) together with the `MatrixFMulVecF`
kernel (src/main.c:86-105).  The host uploads `r*c` floats of the matrix
and — per `vector_size = sizeof(float) * r` (src/main.c:701) — only `r`
floats of the vector.  The launch is 2-D, global `(r, c)`, local `(1, c)`
(src/main.c:715-716): each work group is one row holding the `c` work items
of that row, item `col` writes the local scratch slot `col` with
`m[row*c + col] * v[row]` (src/main.c:94 — the multiplier is `v[row]`, not
`v[col]`), and after the barrier the item with `col == 0` serially sums the
`c` scratch slots into `out[row]`.  Every scratch slot of a group is written
before the barrier, so this kernel is race-free and deterministic.  The
readback copies `r` floats into the host result array, leaving any further
cells of it untouched; `dj` models the fresh output buffer's unspecified
contents in the degenerate case `c = 0`, where no work item exists. -/
def matVecF (m v out : List ℚ) (r c : ℕ) (dj : ℚ) : List ℚ :=
  let dm := m.take (r * c)
  let dv := v.take r
  let kernelOut := (List.range r).map fun row =>
    if 0 < c then ∑ col ∈ Finset.range c, dm.getD (row * c + col) 0 * dv.getD row 0
    else dj
  kernelOut ++ out.drop r

/-- One admissible execution of `dotMatricesF` (src/main.c:651-697) with the
`dotMatricesF` kernel (src/main.c:68-84).  The launch is 3-D, global
`(r, c, c2)`, local `(1, c, 1)` (src/main.c:683-684).  Because the local
size in dimension 0 is 1, `col = get_local_id(0)` (src/main.c:73) is 0 for
every work item, so every item of a work group writes the same scratch slot
`partial_sums[0]` with `s1[row*c + 0] * s2[0*c2 + col2]` where
`col2 = get_global_id(1)` ranges over the dimension sized `c`
(src/main.c:71-75): the slot is written concurrently by all `c` items of the
group (a data race), and slots `1 … c-1` are never written, so the serial
sum at src/main.c:77-82 adds uninitialized local memory.  Output cell
`(row, col2)` is written only when `col2 < min c c2`; cells with
`col2 ≥ c` are never written and keep the fresh buffer's unspecified
contents `dj`.  The parameters expose the indeterminacy: `win row col2`
is the global id in dimension 1 of the racing write that the reader
observes (admissible executions have `win row col2 < min c c2`), and
`scr row col2 i` is the uninitialized content observed in scratch slot
`i ≥ 1`. -/
def dotMatricesF_run (s1 s2 : List ℚ) (r c c2 : ℕ) (win : ℕ → ℕ → ℕ)
    (scr : ℕ → ℕ → ℕ → ℚ) (dj : ℚ) : List ℚ :=
  (List.range (r * c2)).map fun jdx =>
    let row := jdx / c2
    let col2 := jdx % c2
    if col2 < c then
      s1.getD (row * c) 0 * s2.getD (win row col2) 0 +
        ∑ i ∈ Finset.Ico 1 c, scr row col2 i
    else dj

/-- `createShapeF` (src/main.c:726-735): allocate `n` floats and set every
one of them to `fill_val` by the loop at src/main.c:730-733. -/
def createShapeF (n : ℕ) (fill_val : ℚ) : List ℚ :=
  (List.range n).map fun _ => fill_val

/-- Modelled from the spec's words (§4.4): the padding ladder — an extent
below 32 becomes 32, an extent strictly between two consecutive breakpoints
of {32, 64, 128, 256} becomes the larger breakpoint, an extent at a
breakpoint or at least 256 is left unchanged.  Used only to compare the
spec's description with the source's `padExtent`/`padRC`. -/
def ladderSpec (x : ℕ) : ℕ :=
  if x < 32 then 32
  else if 32 < x ∧ x < 64 then 64
  else if 64 < x ∧ x < 128 then 128
  else if 128 < x ∧ x < 256 then 256
  else x

/-- The padding behaviour claim C5 asserts: the vector case pads only the
nonunit extent, and the matrix case pads both extents independently by the
ladder. -/
def padSpecClaimed (r c : ℕ) : ℕ × ℕ :=
  if r = 1 then (r, ladderSpec c)
  else if c = 1 then (ladderSpec r, c)
  else (ladderSpec r, ladderSpec c)

/-- The amended padding behaviour: as claimed for vectors, but in the matrix
case an `r` below 32 is raised to 32 with `c` left untouched; otherwise a
`c` below 32 is raised to 32 with `r` left untouched; only when both extents
are at least 32 are both padded independently by the ladder. -/
def padSpecAmended (r c : ℕ) : ℕ × ℕ :=
  if r = 1 then (r, ladderSpec c)
  else if c = 1 then (ladderSpec r, c)
  else if r < 32 then (32, c)
  else if c < 32 then (r, 32)
  else (ladderSpec r, ladderSpec c)

/-- Error-checking discipline of one host function: entry `k` of the list
records whether the `k`-th status-returning device call of that function is
followed by a `checkError()` call (src/main.c:118-125), which terminates the
process when the stored status differs from `CL_SUCCESS`. -/
def processAborts : List Bool → List Int → Bool
  | [], _ => false
  | _ :: _, [] => false
  | ch :: cht, st :: stt => (ch && st != 0) || processAborts cht stt

/-- `addShapesF` performs 14 status-returning device calls (three
`clCreateBuffer`, two `clEnqueueWriteBuffer`, `clWaitForEvents`, four
`clSetKernelArg`, `clEnqueueNDRangeKernel`, `clWaitForEvents`,
`clEnqueueReadBuffer`, `clWaitForEvents`; src/main.c:214-248) and never
calls `checkError`. -/
def addShapesF_checkedCalls : List Bool := List.replicate 14 false

/-- `subtractShapesF`: the same 14 unchecked calls (src/main.c:346-380). -/
def subtractShapesF_checkedCalls : List Bool := List.replicate 14 false

/-- `crossShapesF`: the same 14 unchecked calls (src/main.c:477-511). -/
def crossShapesF_checkedCalls : List Bool := List.replicate 14 false

/-- `divideShapesF`: the same 14 unchecked calls (src/main.c:608-642). -/
def divideShapesF_checkedCalls : List Bool := List.replicate 14 false

/-- `matVecF` performs 16 status-returning device calls (three creates, two
writes, one wait, six arg-binds, enqueue, wait, read, wait;
src/main.c:702-720) and never calls `checkError`. -/
def matVecF_checkedCalls : List Bool := List.replicate 16 false

/-- `dotMatricesF` performs 17 status-returning device calls (three creates,
two writes, one wait, seven arg-binds, enqueue, wait, read, wait;
src/main.c:656-691), each immediately followed by `checkError()`. -/
def dotMatricesF_checkedCalls : List Bool := List.replicate 17 true

/-- `gpuInit` (src/main.c:736-750) stores 11 statuses in `gpu.err`
(`clGetPlatformIDs`, `clGetDeviceIDs`, `clCreateContext`,
`clCreateCommandQueue`, `clCreateProgramWithSource`, six `clCreateKernel`;
the `clBuildProgram` status at src/main.c:743 is discarded outright) and
never calls `checkError`. -/
def gpuInit_checkedCalls : List Bool := List.replicate 11 false

/-- The resources `gpuClean` could release: the six kernel handles, the nine
completion events, the program, the queue, the context and the device
reference (see the `GPU` structure in src/linearalgebra.h). -/
inductive Resource
  | addFKernel
  | subtractFKernel
  | crossFKernel
  | divideFKernel
  | dotFKernel
  | matVecFkernel
  | addFEvent
  | subtractFEvent
  | crossFEvent
  | divideFEvent
  | dotFEvent
  | matVecFEvent
  | s1Write
  | s2Write
  | s3Write
  | program
  | queue
  | context
  | device
deriving DecidableEq, Fintype

/-- The exact sequence of release calls performed by `gpuClean`
(src/main.c:751-772), in source order: note src/main.c:760 and
src/main.c:762 both release `crossFEvent`, and no line releases
`divideFEvent`. -/
def gpuClean_releases : List Resource :=
  [.addFKernel, .subtractFKernel, .crossFKernel, .divideFKernel,
   .dotFKernel, .matVecFkernel,
   .addFEvent, .crossFEvent, .subtractFEvent, .crossFEvent,
   .dotFEvent, .matVecFEvent, .s1Write, .s2Write, .s3Write,
   .program, .queue, .context, .device]

/-! ## Supporting lemmas -/

theorem crealloc_length (xs : List ℚ) (n : ℕ) (j : ℚ) :
    (crealloc xs n j).length = n := by
  simp only [crealloc, List.length_append, List.length_take, List.length_replicate]
  omega

theorem crealloc_getD (xs : List ℚ) (n : ℕ) (j d : ℚ) (i : ℕ)
    (h1 : i < n) (h2 : i < xs.length) :
    (crealloc xs n j).getD i d = xs.getD i d := by
  unfold crealloc
  rw [List.getD_eq_getElem?_getD, List.getElem?_append, List.length_take,
    if_pos (by omega : i < min n xs.length), List.getElem?_take, if_pos h1,
    ← List.getD_eq_getElem?_getD]

theorem rangeMap_getD (f : ℕ → ℚ) (N i : ℕ) (h : i < N) (d : ℚ) :
    ((List.range N).map f).getD i d = f i := by
  rw [List.getD_eq_getElem?_getD]
  simp [List.getElem?_range h]

theorem take_getD (l : List ℚ) (n i : ℕ) (d : ℚ) (h : i < n) :
    (l.take n).getD i d = l.getD i d := by
  rw [List.getD_eq_getElem?_getD, List.getD_eq_getElem?_getD,
    List.getElem?_take, if_pos h]

theorem padExtent_ge (x : ℕ) : x ≤ padExtent x := by
  unfold padExtent
  split_ifs <;> omega

theorem padRC_fst_ge (r c : ℕ) : r ≤ (padRC r c).1 := by
  have h := padExtent_ge r
  unfold padRC
  split_ifs <;> dsimp only <;> omega

theorem padRC_snd_ge (r c : ℕ) : c ≤ (padRC r c).2 := by
  have h := padExtent_ge c
  unfold padRC
  split_ifs <;> dsimp only <;> omega

theorem padRC_mul_ge (r c : ℕ) : r * c ≤ (padRC r c).1 * (padRC r c).2 :=
  Nat.mul_le_mul (padRC_fst_ge r c) (padRC_snd_ge r c)

theorem elemGlobalSize_of_ne_one (pr pc : ℕ) (h : pr ≠ 1) :
    elemGlobalSize pr pc = pr := by
  unfold elemGlobalSize
  split_ifs <;> rfl

theorem elemGlobalSize_one (pc : ℕ) : elemGlobalSize 1 pc = pc := by
  simp [elemGlobalSize]

/-- Indices guaranteed to be covered by the launch: every index below the
visible count in the vector case, and indices below the padded row extent in
the matrix case. -/
theorem elem_covered (r c i : ℕ) (hr : 1 ≤ r) (hc : 1 ≤ c) (hi : i < r * c)
    (hG : r = 1 ∨ c = 1 ∨ i < (padRC r c).1) :
    i < elemGlobalSize (padRC r c).1 (padRC r c).2 := by
  rcases hG with h | h | h
  · subst h
    have hp : padRC 1 c = (1, padExtent c) := by simp [padRC]
    have hge := padExtent_ge c
    rw [hp, elemGlobalSize_one]
    omega
  · subst h
    by_cases hr1 : r = 1
    · subst hr1
      have hp : padRC 1 1 = (1, padExtent 1) := by simp [padRC]
      have hge := padExtent_ge 1
      rw [hp, elemGlobalSize_one]
      omega
    · have hp : padRC r 1 = (padExtent r, 1) := by simp [padRC, hr1]
      have hge := padExtent_ge r
      rw [hp]
      rw [elemGlobalSize_of_ne_one _ _ (by omega)]
      omega
  · by_cases hp : (padRC r c).1 = 1
    · have hpc := padRC_snd_ge r c
      rw [hp] at h
      rw [hp, elemGlobalSize_one]
      omega
    · rw [elemGlobalSize_of_ne_one _ _ hp]
      exact h

/-- The value of a visible output cell of an elementwise operation: cells
covered by the launch hold the kernel result on the padded input arrays,
cells the launch misses hold the fresh device buffer's contents. -/
theorem elemShapesF_s3_cell (op : ℚ → ℚ → ℚ) (s1 s2 s3 : List ℚ) (r c : ℕ)
    (hj dj : ℚ) (i : ℕ) (hi : i < r * c) :
    (elemShapesF op s1 s2 s3 r c hj dj).s3.getD i 0 =
      if i < elemGlobalSize (padRC r c).1 (padRC r c).2 then
        op ((crealloc s1 ((padRC r c).1 * (padRC r c).2) hj).getD i 0)
           ((crealloc s2 ((padRC r c).1 * (padRC r c).2) hj).getD i 0)
      else dj := by
  have hN : r * c ≤ (padRC r c).1 * (padRC r c).2 := padRC_mul_ge r c
  unfold elemShapesF
  dsimp only
  rw [crealloc_getD _ _ _ _ _ hi
    (by rw [List.length_map, List.length_range]; omega)]
  exact rangeMap_getD _ _ _ (lt_of_lt_of_le hi hN) _

/-- Cells of the two input arrays below the visible count survive the
grow-then-shrink realloc pair untouched. -/
theorem elemShapesF_inputs_cell (op : ℚ → ℚ → ℚ) (s1 s2 s3 : List ℚ)
    (r c : ℕ) (hj dj : ℚ) (i : ℕ) (hi : i < r * c)
    (h1 : r * c ≤ s1.length) (h2 : r * c ≤ s2.length) :
    (elemShapesF op s1 s2 s3 r c hj dj).s1.getD i 0 = s1.getD i 0 ∧
    (elemShapesF op s1 s2 s3 r c hj dj).s2.getD i 0 = s2.getD i 0 := by
  have hN : r * c ≤ (padRC r c).1 * (padRC r c).2 := padRC_mul_ge r c
  unfold elemShapesF
  dsimp only
  constructor
  · rw [crealloc_getD _ _ _ _ _ hi (by rw [crealloc_length]; omega),
      crealloc_getD _ _ _ _ _ (by omega) (by omega)]
  · rw [crealloc_getD _ _ _ _ _ hi (by rw [crealloc_length]; omega),
      crealloc_getD _ _ _ _ _ (by omega) (by omega)]

/-- The caller-visible lengths of the three arrays after an elementwise
operation are all the original `r*c`. -/
theorem elemShapesF_lengths (op : ℚ → ℚ → ℚ) (s1 s2 s3 : List ℚ) (r c : ℕ)
    (hj dj : ℚ) :
    (elemShapesF op s1 s2 s3 r c hj dj).s1.length = r * c ∧
    (elemShapesF op s1 s2 s3 r c hj dj).s2.length = r * c ∧
    (elemShapesF op s1 s2 s3 r c hj dj).s3.length = r * c := by
  unfold elemShapesF
  dsimp only
  exact ⟨crealloc_length _ _ _, crealloc_length _ _ _, crealloc_length _ _ _⟩

/-- A covered cell of an elementwise operation holds the kernel operation of
the two original input values at that index. -/
theorem elemShapesF_correct_at (op : ℚ → ℚ → ℚ) (s1 s2 s3 : List ℚ)
    (r c : ℕ) (hj dj : ℚ) (hr : 1 ≤ r) (hc : 1 ≤ c)
    (h1 : r * c ≤ s1.length) (h2 : r * c ≤ s2.length)
    (i : ℕ) (hi : i < r * c) (hG : r = 1 ∨ c = 1 ∨ i < (padRC r c).1) :
    (elemShapesF op s1 s2 s3 r c hj dj).s3.getD i 0 =
      op (s1.getD i 0) (s2.getD i 0) := by
  have hN : r * c ≤ (padRC r c).1 * (padRC r c).2 := padRC_mul_ge r c
  rw [elemShapesF_s3_cell op s1 s2 s3 r c hj dj i hi,
    if_pos (elem_covered r c i hr hc hi hG),
    crealloc_getD _ _ _ _ _ (by omega) (by omega),
    crealloc_getD _ _ _ _ _ (by omega) (by omega)]

theorem processAborts_all_false (n : ℕ) (s : List Int) :
    processAborts (List.replicate n false) s = false := by
  induction n generalizing s with
  | zero => rfl
  | succ k ih =>
    cases s with
    | nil => rfl
    | cons a t => simp [List.replicate_succ, processAborts, ih]

theorem processAborts_all_true (s : List Int) :
    processAborts (List.replicate s.length true) s =
      s.any (fun x => x != 0) := by
  induction s with
  | nil => rfl
  | cons a t ih => simp [List.replicate_succ, processAborts, ih]

/-! ## Claim C1 — elementwise correctness and the matrix-case dispatch -/

/-- C1 (counterexample).  The claim states every visible output index
`i < r*c` receives `s1[i] OP s2[i]`, in particular in the matrix case.
False: for `addShapesF` on a 2×17 matrix pair the padding yields extents
(32, 17) and the matrix branch launches with `work_dim = 1`, so only 32 work
items run; the visible cell 33 (< 34 = r*c) is never computed and holds the
fresh output buffer's contents (here 0) instead of `1 + 1`. -/
theorem addShapesF_matrix_cell_claim_false :
    (addShapesF (List.replicate 34 (1 : ℚ)) (List.replicate 34 1)
        (List.replicate 34 0) 2 17 0 0).s3.getD 33 0 ≠
      (List.replicate 34 (1 : ℚ)).getD 33 0 +
        (List.replicate 34 (1 : ℚ)).getD 33 0 := by
  show (elemShapesF (· + ·) (List.replicate 34 (1 : ℚ)) (List.replicate 34 1)
        (List.replicate 34 0) 2 17 0 0).s3.getD 33 0 ≠ _
  rw [elemShapesF_s3_cell _ _ _ _ _ _ _ _ _ (by norm_num),
    if_neg (by decide)]
  simp only [List.getD_eq_getElem?_getD, List.getElem?_replicate]
  norm_num

/-- C1 (amended).  For every pair of input shapes holding at least `r*c`
values and each of the four operations, the visible output cell `i < r*c`
equals `s1[i] OP s2[i]` whenever the launch covers `i`: in the vector case
(`r = 1` or `c = 1`) that is every `i < r*c`, but in the matrix case the
dispatch passes `work_dim = 1` so only indices below the padded row extent
`(padRC r c).1` are computed; visible cells at or above it are unspecified. -/
theorem elem_ops_correct_amended (s1 s2 s3 : List ℚ) (r c : ℕ) (hj dj : ℚ)
    (hr : 1 ≤ r) (hc : 1 ≤ c) (h1 : r * c ≤ s1.length) (h2 : r * c ≤ s2.length)
    (i : ℕ) (hi : i < r * c) (hG : r = 1 ∨ c = 1 ∨ i < (padRC r c).1) :
    (addShapesF s1 s2 s3 r c hj dj).s3.getD i 0 = s1.getD i 0 + s2.getD i 0 ∧
    (subtractShapesF s1 s2 s3 r c hj dj).s3.getD i 0 = s1.getD i 0 - s2.getD i 0 ∧
    (crossShapesF s1 s2 s3 r c hj dj).s3.getD i 0 = s1.getD i 0 * s2.getD i 0 ∧
    (divideShapesF s1 s2 s3 r c hj dj).s3.getD i 0 = s1.getD i 0 / s2.getD i 0 :=
  ⟨elemShapesF_correct_at _ s1 s2 s3 r c hj dj hr hc h1 h2 i hi hG,
   elemShapesF_correct_at _ s1 s2 s3 r c hj dj hr hc h1 h2 i hi hG,
   elemShapesF_correct_at _ s1 s2 s3 r c hj dj hr hc h1 h2 i hi hG,
   elemShapesF_correct_at _ s1 s2 s3 r c hj dj hr hc h1 h2 i hi hG⟩

/-- C1 (amended) witness: the amended theorem applied to the vector pair
`s1 = [1,2]`, `s2 = [3,4]` at `r = 1`, `c = 2`, `i = 1`. -/
theorem elem_ops_correct_amended_witness :
    (addShapesF [1, 2] [3, 4] [0, 0] 1 2 0 0).s3.getD 1 0 =
      ([1, 2] : List ℚ).getD 1 0 + ([3, 4] : List ℚ).getD 1 0 :=
  (elem_ops_correct_amended [1, 2] [3, 4] [0, 0] 1 2 0 0 (by norm_num)
    (by norm_num) (by simp) (by simp) 1 (by norm_num) (Or.inl rfl)).1

/-! ## Claim C2 — caller-visible sizes restored -/

/-- C2 (confirmed).  After any of the four elementwise operations, all three
caller-visible arrays hold exactly the originally requested `r*c` elements:
each function ends by shrinking every array back to `old_size`
(src/main.c:254-256, 385-387, 516-518, 647-649), so the internal padding
reallocation is invisible across the call boundary. -/
theorem elem_ops_restore_sizes (s1 s2 s3 : List ℚ) (r c : ℕ) (hj dj : ℚ) :
    ((addShapesF s1 s2 s3 r c hj dj).s1.length = r * c ∧
     (addShapesF s1 s2 s3 r c hj dj).s2.length = r * c ∧
     (addShapesF s1 s2 s3 r c hj dj).s3.length = r * c) ∧
    ((subtractShapesF s1 s2 s3 r c hj dj).s1.length = r * c ∧
     (subtractShapesF s1 s2 s3 r c hj dj).s2.length = r * c ∧
     (subtractShapesF s1 s2 s3 r c hj dj).s3.length = r * c) ∧
    ((crossShapesF s1 s2 s3 r c hj dj).s1.length = r * c ∧
     (crossShapesF s1 s2 s3 r c hj dj).s2.length = r * c ∧
     (crossShapesF s1 s2 s3 r c hj dj).s3.length = r * c) ∧
    ((divideShapesF s1 s2 s3 r c hj dj).s1.length = r * c ∧
     (divideShapesF s1 s2 s3 r c hj dj).s2.length = r * c ∧
     (divideShapesF s1 s2 s3 r c hj dj).s3.length = r * c) :=
  ⟨elemShapesF_lengths _ s1 s2 s3 r c hj dj,
   elemShapesF_lengths _ s1 s2 s3 r c hj dj,
   elemShapesF_lengths _ s1 s2 s3 r c hj dj,
   elemShapesF_lengths _ s1 s2 s3 r c hj dj⟩

/-! ## Claim C5 — the padding heuristic -/

/-- C5 (counterexample).  The claim states that in the matrix case both
extents are padded independently by the ladder.  False at `r = 2`, `c = 50`:
the source's `r < 32` branch (src/main.c:167-170) sets `r` to 32 and leaves
`c` at 50, while the ladder would raise 50 to 64. -/
theorem padRC_matrix_claim_false : padRC 2 50 ≠ padSpecClaimed 2 50 := by
  decide

/-- C5 (amended).  The padding equals the ladder description amended in the
matrix case: the vector case pads only the nonunit extent by the ladder
(below 32 → 32, strictly between consecutive breakpoints of
{32, 64, 128, 256} → the larger breakpoint, otherwise unchanged); in the
matrix case an `r` below 32 is raised to 32 with `c` untouched, otherwise a
`c` below 32 is raised to 32 with `r` untouched, and only when both extents
are at least 32 are both padded independently by the ladder. -/
theorem padRC_amended (r c : ℕ) : padRC r c = padSpecAmended r c := by
  have h : ∀ x, padExtent x = ladderSpec x := by
    intro x
    unfold padExtent ladderSpec
    split_ifs <;> omega
  simp only [padRC, padSpecAmended, h]

/-! ## Claim C3 — matrix-vector product with row-broadcast semantics -/

/-- C3 (confirmed).  For every row below `r`, `matVecF` stores
`result[row] = (Σ_col matrix[row*c+col]) * vector[row]`: the kernel
multiplies every column's entry of the row by `vector[row]`
(src/main.c:94), not by `vector[col]`, and the serial reduction sums those
products, which factors into the row sum times `vector[row]`. -/
theorem matVecF_rowBroadcast (m v out : List ℚ) (r c : ℕ) (dj : ℚ)
    (row : ℕ) (hrow : row < r) (hc : 0 < c) :
    (matVecF m v out r c dj).getD row 0 =
      (∑ col ∈ Finset.range c, m.getD (row * c + col) 0) * v.getD row 0 := by
  unfold matVecF
  dsimp only
  rw [List.getD_eq_getElem?_getD, List.getElem?_append,
    if_pos (by simp [hrow]), List.getElem?_map]
  rw [List.getElem?_range hrow]
  simp only [Option.map_some', Option.getD_some, if_pos hc]
  rw [Finset.sum_mul]
  refine Finset.sum_congr rfl fun col hcol => ?_
  have hcol2 : col < c := Finset.mem_range.mp hcol
  have hidx : row * c + col < r * c := by
    have h1 : row + 1 ≤ r := hrow
    have h2 := Nat.mul_le_mul_right c h1
    have h3 : (row + 1) * c = row * c + c := by ring
    omega
  rw [take_getD _ _ _ _ hidx, take_getD _ _ _ _ hrow]

/-- C3 witness: the concrete case of the claim — matrix `[[1,2],[3,4]]`,
vector `[10,20]`, `r = c = 2` gives `result = [30, 140]`. -/
theorem matVecF_rowBroadcast_witness :
    (matVecF [1, 2, 3, 4] [10, 20] [0, 0] 2 2 0).getD 0 0 = 30 ∧
    (matVecF [1, 2, 3, 4] [10, 20] [0, 0] 2 2 0).getD 1 0 = 140 := by
  constructor
  · rw [matVecF_rowBroadcast _ _ _ _ _ _ 0 (by norm_num) (by norm_num)]
    simp [Finset.sum_range_succ]
    norm_num
  · rw [matVecF_rowBroadcast _ _ _ _ _ _ 1 (by norm_num) (by norm_num)]
    simp [Finset.sum_range_succ]
    norm_num

/-! ## Claim C10 — the result depends only on the first r vector values -/

/-- C10 (confirmed).  `matVecF` transfers only `r` floats of the vector to
the device (src/main.c:701, 706) and the kernel indexes the vector solely by
`row < r` (src/main.c:94), so two vector arrays agreeing on their first `r`
values produce identical results. -/
theorem matVecF_vector_prefix (m v₁ v₂ out : List ℚ) (r c : ℕ) (dj : ℚ)
    (h : v₁.take r = v₂.take r) :
    matVecF m v₁ out r c dj = matVecF m v₂ out r c dj := by
  unfold matVecF
  rw [h]

/-- C10 witness: two vectors differing only beyond index `r - 1 = 1`. -/
theorem matVecF_vector_prefix_witness :
    matVecF [1, 2, 3, 4] [10, 20, 99] [0, 0] 2 2 0 =
      matVecF [1, 2, 3, 4] [10, 20, 55] [0, 0] 2 2 0 :=
  matVecF_vector_prefix [1, 2, 3, 4] [10, 20, 99] [10, 20, 55] [0, 0] 2 2 0 rfl

/-! ## Claim C4 — the matrix product kernel is broken -/

/-- C4 (code bug).  The claim (and the repository's own documentation of
`dotFKernel`) says `dotMatricesF` computes the standard matrix product, with
`A = [[1,2,3],[4,5,6]]`, `B = [[1,0],[0,1],[1,1]]` giving
`C = [[4,5],[10,11]]`.  The kernel cannot: with local size `(1, c, 1)` every
work item has `get_local_id(0) = 0`, so all `c` items of a group race on
scratch slot 0 and the reduction then sums `c - 1` uninitialized slots.  In
the admissible execution where each reader observes its own write and the
uninitialized slots hold zero, output cell (0,0) evaluates to
`A[0][0] * B[0][0] = 1`, not 4. -/
theorem dotMatricesF_run_bug :
    (dotMatricesF_run [1, 2, 3, 4, 5, 6] [1, 0, 0, 1, 1, 1] 2 3 2
        (fun _ col2 => col2) (fun _ _ _ => 0) 0).getD 0 0 ≠ 4 := by
  unfold dotMatricesF_run
  rw [rangeMap_getD _ _ _ (by norm_num)]
  norm_num

/-! ## Claim C6 — which functions check device statuses -/

/-- C6 (counterexample).  The claim says every device-operation failure in
any of the six operations (and in `gpuInit`) terminates the process.  False:
here the very first device call of `addShapesF` (a buffer allocation)
returns the non-success status 1, yet the function performs no check and
never aborts — `checkError` is not called anywhere in `addShapesF`
(src/main.c:126-257). -/
theorem addShapesF_unchecked_claim_false :
    processAborts addShapesF_checkedCalls ((1 : Int) :: List.replicate 13 0) = false ∧
    (((1 : Int) :: List.replicate 13 0).any fun x => x != 0) = true := by
  decide

/-- C6 (amended).  Only `dotMatricesF` checks device-operation statuses:
each of its 17 status-returning device calls is immediately followed by
`checkError()` (src/main.c:656-692), so it aborts exactly when some status
differs from success.  `gpuInit` and the other five GPU-backed operations
store each status in `gpu.err` but never call `checkError`
(src/main.c:126-650, 698-725, 736-750): no status there, failing or not,
ever terminates the process, and none is propagated to the caller. -/
theorem checkError_usage_amended :
    (∀ s : List Int, processAborts gpuInit_checkedCalls s = false) ∧
    (∀ s : List Int, processAborts addShapesF_checkedCalls s = false) ∧
    (∀ s : List Int, processAborts subtractShapesF_checkedCalls s = false) ∧
    (∀ s : List Int, processAborts crossShapesF_checkedCalls s = false) ∧
    (∀ s : List Int, processAborts divideShapesF_checkedCalls s = false) ∧
    (∀ s : List Int, processAborts matVecF_checkedCalls s = false) ∧
    (∀ s : List Int, s.length = 17 →
      (processAborts dotMatricesF_checkedCalls s = true ↔ ∃ x ∈ s, x ≠ 0)) := by
  refine ⟨fun s => processAborts_all_false _ s, fun s => processAborts_all_false _ s,
    fun s => processAborts_all_false _ s, fun s => processAborts_all_false _ s,
    fun s => processAborts_all_false _ s, fun s => processAborts_all_false _ s,
    fun s hs => ?_⟩
  have hrw : dotMatricesF_checkedCalls = List.replicate s.length true := by
    rw [hs]
    rfl
  rw [hrw, processAborts_all_true]
  simp [List.any_eq_true]

/-- C6 (amended) witness: a failing first status aborts `dotMatricesF` and
does not abort `gpuInit`. -/
theorem checkError_usage_amended_witness :
    processAborts dotMatricesF_checkedCalls ((2 : Int) :: List.replicate 16 0) = true ∧
    processAborts gpuInit_checkedCalls ((2 : Int) :: List.replicate 10 0) = false := by
  constructor
  · exact (checkError_usage_amended.2.2.2.2.2.2 ((2 : Int) :: List.replicate 16 0)
      (by decide)).mpr ⟨2, by decide, by decide⟩
  · exact checkError_usage_amended.1 ((2 : Int) :: List.replicate 10 0)

/-! ## Claim C7 — gpuClean's release calls -/

/-- C7 (code bug).  The claim — matching the spec's teardown contract — says
`gpuClean` releases every resource exactly once, the nine events including
`divideFEvent` among them.  The source releases `crossFEvent` twice
(src/main.c:760 and src/main.c:762) and never releases `divideFEvent`;
every other resource is released exactly once. -/
theorem gpuClean_release_counts :
    ∀ k : Resource, gpuClean_releases.count k =
      if k = Resource.crossFEvent then 2
      else if k = Resource.divideFEvent then 0
      else 1 := by
  decide

/-! ## Claim C8 — createShapeF -/

/-- C8 (confirmed).  `createShapeF n v` returns a sequence of exactly `n`
values, every one equal to `v`; `n = 0` yields the empty sequence. -/
theorem createShapeF_spec (n : ℕ) (v : ℚ) :
    (createShapeF n v).length = n ∧
    ∀ i, i < n → (createShapeF n v).getD i 0 = v := by
  constructor
  · simp [createShapeF]
  · intro i hi
    exact rangeMap_getD _ _ _ hi _

/-- C8 witness: `createShapeF` at `n = 3`, `v = 5`, index 1, and the empty
case `n = 0`. -/
theorem createShapeF_spec_witness :
    (createShapeF 3 5).length = 3 ∧ (createShapeF 3 5).getD 1 0 = 5 ∧
    (createShapeF 0 5).length = 0 :=
  ⟨(createShapeF_spec 3 5).1, (createShapeF_spec 3 5).2 1 (by norm_num),
   (createShapeF_spec 0 5).1⟩

/-! ## Claim C9 — input shapes unchanged -/

/-- C9 (confirmed).  Every elementwise operation leaves the first `r*c`
values of both input shapes unchanged: the inputs are only uploaded to
read-only device buffers (src/main.c:214-218) and resized up and back down
(src/main.c:211-212, 254-255), and `realloc` preserves the retained
prefix. -/
theorem elem_ops_preserve_inputs (s1 s2 s3 : List ℚ) (r c : ℕ) (hj dj : ℚ)
    (i : ℕ) (hi : i < r * c) (h1 : r * c ≤ s1.length) (h2 : r * c ≤ s2.length) :
    ((addShapesF s1 s2 s3 r c hj dj).s1.getD i 0 = s1.getD i 0 ∧
     (addShapesF s1 s2 s3 r c hj dj).s2.getD i 0 = s2.getD i 0) ∧
    ((subtractShapesF s1 s2 s3 r c hj dj).s1.getD i 0 = s1.getD i 0 ∧
     (subtractShapesF s1 s2 s3 r c hj dj).s2.getD i 0 = s2.getD i 0) ∧
    ((crossShapesF s1 s2 s3 r c hj dj).s1.getD i 0 = s1.getD i 0 ∧
     (crossShapesF s1 s2 s3 r c hj dj).s2.getD i 0 = s2.getD i 0) ∧
    ((divideShapesF s1 s2 s3 r c hj dj).s1.getD i 0 = s1.getD i 0 ∧
     (divideShapesF s1 s2 s3 r c hj dj).s2.getD i 0 = s2.getD i 0) :=
  ⟨elemShapesF_inputs_cell _ s1 s2 s3 r c hj dj i hi h1 h2,
   elemShapesF_inputs_cell _ s1 s2 s3 r c hj dj i hi h1 h2,
   elemShapesF_inputs_cell _ s1 s2 s3 r c hj dj i hi h1 h2,
   elemShapesF_inputs_cell _ s1 s2 s3 r c hj dj i hi h1 h2⟩

/-- C9 witness: the preservation theorem applied to `s1 = [1,2]`,
`s2 = [3,4]` at `r = 1`, `c = 2`, `i = 0`. -/
theorem elem_ops_preserve_inputs_witness :
    (addShapesF [1, 2] [3, 4] [0, 0] 1 2 0 0).s1.getD 0 0 =
      ([1, 2] : List ℚ).getD 0 0 :=
  (elem_ops_preserve_inputs [1, 2] [3, 4] [0, 0] 1 2 0 0 0 (by norm_num)
    (by simp) (by simp)).1.1
